import Mathlib

/-!
Shallow embedding of `src/leaflet.wms.js` (leaflet.wms), a WMS extension
layer for Leaflet.  JS objects used as string-keyed records are modelled as
association lists (`StrMap`); `L.extend` is `extend`; `L.Util.getParamString`
is `getParamString` (percent-encoding of values is not modelled — no property
below depends on it); the host map is reduced to the data the code reads from
it (`Viewport`).  Stateful methods become pure state-transformers on explicit
state records; the asynchronous image loads of `wms.Overlay.update` become
explicit `load` / `loadFail` events on the set of in-flight images.
-/

set_option autoImplicit false

/-- Association-list lookup, modelling JS property access `obj[key]`. -/
def alookup {β : Type} : List (String × β) → String → Option β
  | [], _ => none
  | (k, v) :: rest, key => if k = key then some v else alookup rest key

/-- Key list of a string-keyed record. -/
def keys {β : Type} (m : List (String × β)) : List String := m.map Prod.fst

/-- JS objects with string values (e.g. `wmsParams`, `options`). -/
abbrev StrMap := List (String × String)

/-- Property assignment `obj[key] = v`: overwrite in place, else append. -/
def setVal : StrMap → String → String → StrMap
  | [], k, v => [(k, v)]
  | (k0, v0) :: rest, k, v =>
    if k0 = k then (k0, v) :: rest else (k0, v0) :: setVal rest k v

/-- Models `L.extend(dest, src)`: copy every property of `src` into `dest`. -/
def extend (dest : StrMap) : StrMap → StrMap
  | [] => dest
  | (k, v) :: src => extend (setVal dest k v) src

/-- Models `Array.prototype.join(sep)`. -/
def joinSep (sep : String) : List String → String
  | [] => ""
  | [x] => x
  | x :: xs => x ++ sep ++ joinSep sep xs

/-- Models `arr.join(",")` as used for sub-layer names and bbox members. -/
def joinComma (l : List String) : String := joinSep "," l

/-- Value of a digit string, most significant first. -/
def digitsToNat (cs : List Char) : Nat :=
  cs.foldl (fun a c => a * 10 + (c.toNat - 48)) 0

/-- Models the fragment of JS `parseFloat` exercised by WMS version strings:
the longest numeric prefix (`digits` or `digits.digits`) is parsed, trailing
characters such as the second dot of `"1.1.1"` are ignored, and a string with
no numeric prefix yields `none` (JS `NaN`, which fails every comparison).
The result is the exact rational value of the prefix, as a
numerator/denominator pair `(n, d)` with `d` a power of ten, so that
comparisons can be carried out by cross-multiplication. -/
def parseFloatVal (s : String) : Option (Int × Nat) :=
  let cs := s.toList
  let intPart := cs.takeWhile Char.isDigit
  let rest := cs.dropWhile Char.isDigit
  if intPart.isEmpty then none
  else
    match rest with
    | '.' :: r =>
      let fracPart := r.takeWhile Char.isDigit
      some ((digitsToNat intPart * 10 ^ fracPart.length + digitsToNat fracPart : Int),
        10 ^ fracPart.length)
    | _ => some ((digitsToNat intPart : Int), 1)

/-- Projected point, `{x, y}` as produced by `crs.project(...)`. -/
structure Pt where
  x : Int
  y : Int
deriving DecidableEq

/-- Coordinate reference system: its `code` string and whether it is the
canonical `L.CRS.EPSG4326` object (the code compares with `===`). -/
structure CRS where
  code : String
  isEPSG4326 : Bool
deriving DecidableEq

/-- Data the overlay reads from the host map on an update: the projected
north-west and south-east corners of `map.getBounds()`, `map.getSize()`, and
`map.options.crs`. -/
structure Viewport where
  nw : Pt
  se : Pt
  size : Pt
  crs : CRS
deriving DecidableEq

/-- State of a `wms.Overlay`: its base URL, whether it is attached to a map
(`this._map`), its `wmsParams`, the recognized options it keeps
(`options.crs`, `options.uppercase`), `this._currentUrl`,
`this._currentOverlay` (the displayed image, identified by allocation id and
URL), the in-flight images whose `load`/`error` events have not yet fired,
a fresh-id counter for allocating images, whether an `onError` callback was
configured, and the log of `onError` invocations (by failing URL). -/
structure OverlayState where
  url : String
  map : Bool
  wmsParams : StrMap
  optCrs : Option CRS
  optUppercase : Bool
  currentUrl : Option String
  currentOverlay : Option (Nat × String)
  pending : List (Nat × String)
  nextId : Nat
  onErrorConfigured : Bool
  errorCalls : List String
deriving DecidableEq

namespace Overlay

/-- `wms.Overlay.defaultWmsParams` (the boolean `transparent: false` rendered
as its URL form `"false"`). -/
def defaultWmsParams : StrMap :=
  [("service", "WMS"), ("request", "GetMap"), ("version", "1.1.1"),
   ("layers", ""), ("styles", ""), ("format", "image/jpeg"),
   ("transparent", "false")]

/-- The recognized option names of `wms.Overlay.initialize` (`optNames`). -/
def optNames : List String :=
  ["crs", "uppercase", "tiled", "identify", "opacity", "attribution"]

/-- Models `wms.Overlay.initialize`'s splitting of the caller's `options`
object: returns the options object after the constructor ran (non-recognized
keys deleted), the resulting `wmsParams`, and the stored `onError` callback
(represented by its value in `options`).  The `onError` key is not in
`optNames`, so it is both stored and moved into `wmsParams`. -/
def init (options : StrMap) : StrMap × StrMap × Option String :=
  (options.filter (fun kv => optNames.contains kv.1),
   extend defaultWmsParams (options.filter (fun kv => !(optNames.contains kv.1))),
   alookup options "onError")

/-- Effective reference system: `this.options.crs || map.options.crs`. -/
def effectiveCrs (s : OverlayState) (v : Viewport) : CRS :=
  s.optCrs.getD v.crs

/-- `parseFloat(this.wmsParams.version) >= 1.3`: the parsed value `n / d` is
compared with `13 / 10` by cross-multiplication (`d` is a positive power of
ten). -/
def versionGE13 (s : OverlayState) : Bool :=
  match (alookup s.wmsParams "version").bind parseFloatVal with
  | none => false
  | some q => decide ((13 : Int) * q.2 ≤ 10 * q.1)

/-- `wmsVersion >= 1.3 ? 'crs' : 'srs'`. -/
def projectionKey (s : OverlayState) : String :=
  if versionGE13 s then "crs" else "srs"

/-- The four bbox members, in the order the code emits them. -/
def bboxList (v : Viewport) (s : OverlayState) : List Int :=
  if versionGE13 s && (effectiveCrs s v).isEPSG4326 then
    [v.se.y, v.nw.x, v.nw.y, v.se.x]
  else
    [v.nw.x, v.se.y, v.se.x, v.nw.y]

/-- `params.bbox = (...).join(',')`. -/
def bboxString (v : Viewport) (s : OverlayState) : String :=
  joinComma ((bboxList v s).map toString)

/-- The `params` object assembled by `wms.Overlay.updateWmsParams`, in
property-insertion order. -/
def spatialParams (v : Viewport) (s : OverlayState) : StrMap :=
  [("width", toString v.size.x), ("height", toString v.size.y),
   (projectionKey s, (effectiveCrs s v).code), ("bbox", bboxString v s)]

/-- `wms.Overlay.updateWmsParams`: `L.extend(this.wmsParams, params)`. -/
def updateWmsParams (v : Viewport) (s : OverlayState) : OverlayState :=
  { s with wmsParams := extend s.wmsParams (spatialParams v s) }

/-- Models `L.Util.getParamString(params, url, uppercase)`; values are kept
verbatim, without percent-encoding. -/
def getParamString (params : StrMap) (existingUrl : String) (uppercase : Bool) :
    String :=
  (if existingUrl.toList.contains '?' then "&" else "?") ++
    joinSep "&" (params.map (fun kv =>
      (if uppercase then String.map Char.toUpper kv.1 else kv.1) ++ "=" ++ kv.2))

/-- `wms.Overlay.getImageUrl`. -/
def getImageUrl (s : OverlayState) : String :=
  s.url ++ getParamString s.wmsParams s.url s.optUppercase

/-- The request URL an update would issue from state `s` with viewport `v`
(`updateWmsParams()` followed by `getImageUrl()`). -/
def computedUrl (v : Viewport) (s : OverlayState) : String :=
  getImageUrl (updateWmsParams v s)

/-- `wms.Overlay.update`: no-op when detached; otherwise recompute the
spatial parameters, build the URL, stop if it equals `this._currentUrl`, and
otherwise record it and start loading a new image at that URL. -/
def update (v : Viewport) (s : OverlayState) : OverlayState :=
  if s.map = false then s
  else
    let s1 := updateWmsParams v s
    let u := getImageUrl s1
    if s1.currentUrl = some u then s1
    else
      { s1 with currentUrl := some u,
                pending := s1.pending ++ [(s1.nextId, u)],
                nextId := s1.nextId + 1 }

/-- `wms.Overlay.setParams`: `L.extend(this.wmsParams, params); this.update()`. -/
def setParams (params : StrMap) (v : Viewport) (s : OverlayState) : OverlayState :=
  update v { s with wmsParams := extend s.wmsParams params }

/-- URL of the in-flight image with allocation id `i`, if any. -/
def findUrl (i : Nat) : List (Nat × String) → Option String
  | [] => none
  | (j, u) :: rest => if j = i then some u else findUrl i rest

/-- Removal of image `i` from the in-flight set. -/
def removePending (i : Nat) (l : List (Nat × String)) : List (Nat × String) :=
  l.filter (fun p => p.1 != i)

/-- The `load` event of in-flight image `i` firing, running `_swap`: with no
map, nothing is displayed; if the image's URL no longer equals
`this._currentUrl` the image is removed undisplayed; otherwise it replaces
`this._currentOverlay`. -/
def load (i : Nat) (s : OverlayState) : OverlayState :=
  match findUrl i s.pending with
  | none => s
  | some u =>
    if s.map = false then { s with pending := removePending i s.pending }
    else if some u ≠ s.currentUrl then { s with pending := removePending i s.pending }
    else { s with pending := removePending i s.pending,
                  currentOverlay := some (i, u) }

/-- The `error` event of in-flight image `i` firing: the listener invokes
`this.onError` with the failing URL when configured, and does nothing else
(an errored image never fires `load`, so it leaves the in-flight set). -/
def loadFail (i : Nat) (s : OverlayState) : OverlayState :=
  match findUrl i s.pending with
  | none => s
  | some u =>
    { s with pending := removePending i s.pending,
             errorCalls :=
               if s.onErrorConfigured then s.errorCalls ++ [u] else s.errorCalls }

end Overlay

/-- State of a `wms.Source` as far as the sub-layer bookkeeping goes: the
insertion-ordered key list of `this._subLayers`, whether the source itself is
attached to a map (`this._map`), whether its owned overlay is currently added
to that map, and the overlay's `wmsParams` (the image-fetch machinery of the
overlay is modelled separately in `OverlayState`). -/
structure SourceState where
  subLayers : List String
  map : Bool
  ovAttached : Bool
  ovParams : StrMap
deriving DecidableEq

namespace Source

/-- `this._subLayers[name] = true`: a present key keeps its position, a new
key is appended (JS object insertion order for non-index keys). -/
def addKey (l : List String) (n : String) : List String :=
  if n ∈ l then l else l ++ [n]

/-- `delete this._subLayers[name]`. -/
def removeKey (l : List String) (n : String) : List String :=
  l.filter (fun m => m != n)

/-- `wms.Source.refreshOverlay`: join the sub-layer keys; bail out when the
source has no map; detach the overlay when the joined string is empty (JS
falsiness of `""`); otherwise set the overlay's `layers` parameter and attach
it. -/
def refreshOverlay (s : SourceState) : SourceState :=
  let joined := joinComma s.subLayers
  if s.map = false then s
  else if joined = "" then { s with ovAttached := false }
  else { s with ovParams := extend s.ovParams [("layers", joined)],
                ovAttached := true }

/-- `wms.Source.addSubLayer`. -/
def addSubLayer (n : String) (s : SourceState) : SourceState :=
  refreshOverlay { s with subLayers := addKey s.subLayers n }

/-- `wms.Source.removeSubLayer`. -/
def removeSubLayer (n : String) (s : SourceState) : SourceState :=
  refreshOverlay { s with subLayers := removeKey s.subLayers n }

/-- `wms.Source.onAdd`: record the map, then refresh the overlay. -/
def onAdd (s : SourceState) : SourceState :=
  refreshOverlay { s with map := true }

/-- A freshly constructed, not yet attached source (`this._subLayers = {}`)
whose overlay starts with the given `wmsParams`. -/
def mkSource (params : StrMap) : SourceState :=
  { subLayers := [], map := false, ovAttached := false, ovParams := params }

/-- One `addSubLayer`/`removeSubLayer` call. -/
inductive SubLayerOp where
  | add (name : String)
  | remove (name : String)
deriving DecidableEq

/-- The sub-layer name an operation carries. -/
def SubLayerOp.name : SubLayerOp → String
  | .add n => n
  | .remove n => n

/-- Application of one call to a source. -/
def applyOp (op : SubLayerOp) (s : SourceState) : SourceState :=
  match op with
  | .add n => addSubLayer n s
  | .remove n => removeSubLayer n s

/-- Application of a call sequence, left to right. -/
def runOps (ops : List SubLayerOp) (s : SourceState) : SourceState :=
  ops.foldl (fun t op => applyOp op t) s

/-- `wms.Source.parseFeatureInfo`: replace the in-band `"error"` sentinel by
an iframe pointing at the request URL, pass everything else through. -/
def parseFeatureInfo (result url : String) : String :=
  if result = "error" then
    "<iframe src=\x27" ++ url ++ "\x27 style=\x27border:none\x27>"
  else result

end Source

/-- The iframe fallback markup `parseFeatureInfo` substitutes for URL `u`. -/
def iframeFallback (u : String) : String :=
  "<iframe src=\x27" ++ u ++ "\x27 style=\x27border:none\x27>"

/-- The `ajax` helper's `change()`: deliver `responseText` on HTTP 200 and
the literal string `"error"` on any other outcome (a network failure surfaces
as a non-200 status). -/
def ajaxDeliver (status : Nat) (responseText : String) : String :=
  if status = 200 then responseText else "error"

/-- Content handed to the display hook for a `GetFeatureInfo` request at
`url` whose transport finished with `status`/`responseText`: the `ajax`
delivery piped through the default `parseFeatureInfo`. -/
def featureInfoText (status : Nat) (responseText url : String) : String :=
  Source.parseFeatureInfo (ajaxDeliver status responseText) url

/-- The process-wide `var sources = {}` cache; `Source` objects are
identified by allocation id, fresh ids model fresh objects. -/
structure SourceCache where
  entries : List (String × Nat)
  nextId : Nat
deriving DecidableEq

/-- `wms.getSourceForUrl`: return the cached source for `url`, creating and
storing one on a miss. -/
def getSourceForUrl (url : String) (c : SourceCache) : Nat × SourceCache :=
  match alookup c.entries url with
  | some i => (i, c)
  | none =>
    (c.nextId, { entries := c.entries ++ [(url, c.nextId)], nextId := c.nextId + 1 })

/-- Overlay state as constructed for a plain `new wms.Overlay(url, {})`. -/
def freshOverlay (u : String) : OverlayState :=
  { url := u, map := false, wmsParams := Overlay.defaultWmsParams,
    optCrs := none, optUppercase := false, currentUrl := none,
    currentOverlay := none, pending := [], nextId := 0,
    onErrorConfigured := false, errorCalls := [] }

/-- The sub-layer invariant the spec states for an attached source: the
overlay is attached exactly when the sub-layer set is non-empty, and while it
is non-empty its `layers` parameter is the comma-join of the set. -/
def sourceInv (s : SourceState) : Prop :=
  (s.ovAttached = true ↔ s.subLayers ≠ []) ∧
  (s.subLayers ≠ [] → alookup s.ovParams "layers" = some (joinComma s.subLayers))

/-- Strengthened induction invariant for `sourceInv`: additionally the source
is attached and all stored sub-layer names are non-empty. -/
def strongInv (s : SourceState) : Prop :=
  s.map = true ∧ (∀ n ∈ s.subLayers, n ≠ "") ∧ sourceInv s

/-- A non-geographic reference system (Web Mercator). -/
def exampleCrs : CRS := { code := "EPSG:3857", isEPSG4326 := false }

/-- The geographic reference system `L.CRS.EPSG4326`. -/
def epsg4326 : CRS := { code := "EPSG:4326", isEPSG4326 := true }

/-- The spec's example viewport: projected corners NW = (10, 20) and
SE = (5, 15), a 256 × 256 pixel map, Web Mercator. -/
def exView : Viewport :=
  { nw := { x := 10, y := 20 }, se := { x := 5, y := 15 },
    size := { x := 256, y := 256 }, crs := exampleCrs }

/-- The example viewport after a resize (so a recomputed URL differs). -/
def exViewLarge : Viewport := { exView with size := { x := 512, y := 512 } }

/-- The example viewport with the geographic reference system. -/
def exView4326 : Viewport := { exView with crs := epsg4326 }

/-- A default overlay attached to a map. -/
def attachedOverlay : OverlayState :=
  { freshOverlay "http://example.com/wms" with map := true }

/-- The attached overlay with WMS version 1.3.0. -/
def overlay13 : OverlayState :=
  { attachedOverlay with
    wmsParams := setVal Overlay.defaultWmsParams "version" "1.3.0" }

/-- An attached overlay with one in-flight image and an `onError` callback. -/
def c6Overlay : OverlayState :=
  { attachedOverlay with
    pending := [(0, "http://img")], nextId := 1, onErrorConfigured := true }

/-- The same overlay without a configured callback. -/
def c6OverlayNoCb : OverlayState := { c6Overlay with onErrorConfigured := false }

/-- An example constructor `options` object. -/
def exOptions : StrMap :=
  [("uppercase", "true"), ("styles", "default"), ("onError", "cb")]

/-- An example `setParams` argument. -/
def exParams : StrMap := [("styles", "classic"), ("bbox", "0,0,0,0")]

/-- The spec's example call sequence. -/
def exOps : List Source.SubLayerOp :=
  [Source.SubLayerOp.add "roads", Source.SubLayerOp.add "rivers",
   Source.SubLayerOp.remove "roads"]

theorem alookup_setVal_self (m : StrMap) (k v : String) :
    alookup (setVal m k v) k = some v := by
  induction m with
  | nil => simp [setVal, alookup]
  | cons hd tl ih =>
    obtain ⟨k0, v0⟩ := hd
    by_cases h : k0 = k
    · simp [setVal, alookup, h]
    · simp [setVal, alookup, h, ih]

theorem alookup_setVal_ne (m : StrMap) (k k0 v : String) (h : k0 ≠ k) :
    alookup (setVal m k0 v) k = alookup m k := by
  induction m with
  | nil => simp [setVal, alookup, h]
  | cons hd tl ih =>
    obtain ⟨k1, v1⟩ := hd
    by_cases h1 : k1 = k0
    · subst h1
      simp [setVal, alookup, h]
    · simp [setVal, alookup, h1, ih]

theorem alookup_extend_notmem (p m : StrMap) (k : String) (h : k ∉ keys p) :
    alookup (extend m p) k = alookup m k := by
  induction p generalizing m with
  | nil => rfl
  | cons hd tl ih =>
    obtain ⟨k0, v0⟩ := hd
    simp only [keys, List.map_cons, List.mem_cons, not_or] at h
    rw [extend, ih _ h.2, alookup_setVal_ne _ _ _ _ (fun e => h.1 e.symm)]

theorem setVal_of_alookup (m : StrMap) (k v : String)
    (h : alookup m k = some v) : setVal m k v = m := by
  induction m with
  | nil => simp [alookup] at h
  | cons hd tl ih =>
    obtain ⟨k0, v0⟩ := hd
    by_cases hk : k0 = k
    · subst hk
      simp [alookup] at h
      simp [setVal, h]
    · simp [alookup, hk] at h
      simp [setVal, hk, ih h]

theorem alookup_extend_mem (p m : StrMap) (k v : String)
    (hnd : (keys p).Nodup) (h : alookup p k = some v) :
    alookup (extend m p) k = some v := by
  induction p generalizing m with
  | nil => simp [alookup] at h
  | cons hd tl ih =>
    obtain ⟨k0, v0⟩ := hd
    simp only [keys, List.map_cons, List.nodup_cons] at hnd
    rw [extend]
    by_cases hk : k0 = k
    · subst hk
      simp [alookup] at h
      rw [alookup_extend_notmem _ _ _ hnd.1, alookup_setVal_self, h]
    · simp [alookup, hk] at h
      exact ih _ hnd.2 h

theorem extend_extend_self (p m : StrMap) (hnd : (keys p).Nodup) :
    extend (extend m p) p = extend m p := by
  induction p generalizing m with
  | nil => rfl
  | cons hd tl ih =>
    obtain ⟨k0, v0⟩ := hd
    simp only [keys, List.map_cons, List.nodup_cons] at hnd
    rw [extend, extend]
    have h1 : alookup (extend (setVal m k0 v0) tl) k0 = some v0 := by
      rw [alookup_extend_notmem _ _ _ hnd.1, alookup_setVal_self]
    rw [setVal_of_alookup _ _ _ h1]
    exact ih _ hnd.2

theorem joinComma_ne_empty (l : List String) (h : l ≠ [])
    (h2 : ∀ n ∈ l, n ≠ "") : joinComma l ≠ "" := by
  match l with
  | [] => exact absurd rfl h
  | [a] => exact h2 a (by simp)
  | a :: b :: r =>
    intro he
    have he2 : a ++ "," ++ joinSep "," (b :: r) = "" := he
    have hd := congrArg String.data he2
    rw [String.data_append, String.data_append] at hd
    have hc : (",".data : List Char) = [','] := rfl
    rw [hc] at hd
    simp at hd

@[simp] theorem uwp_url (v : Viewport) (s : OverlayState) :
    (Overlay.updateWmsParams v s).url = s.url := rfl

@[simp] theorem uwp_map (v : Viewport) (s : OverlayState) :
    (Overlay.updateWmsParams v s).map = s.map := rfl

@[simp] theorem uwp_optCrs (v : Viewport) (s : OverlayState) :
    (Overlay.updateWmsParams v s).optCrs = s.optCrs := rfl

@[simp] theorem uwp_optUppercase (v : Viewport) (s : OverlayState) :
    (Overlay.updateWmsParams v s).optUppercase = s.optUppercase := rfl

@[simp] theorem uwp_currentUrl (v : Viewport) (s : OverlayState) :
    (Overlay.updateWmsParams v s).currentUrl = s.currentUrl := rfl

@[simp] theorem uwp_currentOverlay (v : Viewport) (s : OverlayState) :
    (Overlay.updateWmsParams v s).currentOverlay = s.currentOverlay := rfl

@[simp] theorem uwp_pending (v : Viewport) (s : OverlayState) :
    (Overlay.updateWmsParams v s).pending = s.pending := rfl

@[simp] theorem uwp_nextId (v : Viewport) (s : OverlayState) :
    (Overlay.updateWmsParams v s).nextId = s.nextId := rfl

@[simp] theorem uwp_onErrorConfigured (v : Viewport) (s : OverlayState) :
    (Overlay.updateWmsParams v s).onErrorConfigured = s.onErrorConfigured := rfl

@[simp] theorem uwp_errorCalls (v : Viewport) (s : OverlayState) :
    (Overlay.updateWmsParams v s).errorCalls = s.errorCalls := rfl

theorem uwp_wmsParams (v : Viewport) (s : OverlayState) :
    (Overlay.updateWmsParams v s).wmsParams =
      extend s.wmsParams (Overlay.spatialParams v s) := rfl

theorem update_not_attached (v : Viewport) (s : OverlayState)
    (h : s.map = false) : Overlay.update v s = s := by
  simp [Overlay.update, h]

theorem update_same (v : Viewport) (s : OverlayState) (h : s.map = true)
    (h2 : s.currentUrl = some (Overlay.computedUrl v s)) :
    Overlay.update v s = Overlay.updateWmsParams v s := by
  have h2' := h2
  rw [Overlay.computedUrl] at h2'
  simp [Overlay.update, h, h2']

theorem update_new (v : Viewport) (s : OverlayState) (h : s.map = true)
    (h2 : ¬ s.currentUrl = some (Overlay.computedUrl v s)) :
    Overlay.update v s =
      { Overlay.updateWmsParams v s with
        currentUrl := some (Overlay.computedUrl v s),
        pending := s.pending ++ [(s.nextId, Overlay.computedUrl v s)],
        nextId := s.nextId + 1 } := by
  have h2' := h2
  rw [Overlay.computedUrl] at h2'
  simp [Overlay.update, Overlay.computedUrl, h, h2']

theorem versionGE13_congr (a b : OverlayState) (h : a.wmsParams = b.wmsParams) :
    Overlay.versionGE13 a = Overlay.versionGE13 b := by
  unfold Overlay.versionGE13
  rw [h]

theorem spatialParams_congr (v : Viewport) (a b : OverlayState)
    (h : Overlay.versionGE13 a = Overlay.versionGE13 b)
    (h2 : a.optCrs = b.optCrs) :
    Overlay.spatialParams v a = Overlay.spatialParams v b := by
  unfold Overlay.spatialParams Overlay.projectionKey Overlay.bboxString
    Overlay.bboxList Overlay.effectiveCrs
  rw [h, h2]

theorem getImageUrl_congr (a b : OverlayState) (h1 : a.url = b.url)
    (h2 : a.wmsParams = b.wmsParams) (h3 : a.optUppercase = b.optUppercase) :
    Overlay.getImageUrl a = Overlay.getImageUrl b := by
  unfold Overlay.getImageUrl
  rw [h1, h2, h3]

theorem version_notmem_spatial (v : Viewport) (s : OverlayState) :
    "version" ∉ keys (Overlay.spatialParams v s) := by
  unfold Overlay.spatialParams Overlay.projectionKey keys
  cases h : Overlay.versionGE13 s <;> simp [h]

theorem spatial_keys_nodup (v : Viewport) (s : OverlayState) :
    (keys (Overlay.spatialParams v s)).Nodup := by
  unfold Overlay.spatialParams Overlay.projectionKey keys
  cases h : Overlay.versionGE13 s <;> simp [h]

theorem versionGE13_uwp (v : Viewport) (s : OverlayState) :
    Overlay.versionGE13 (Overlay.updateWmsParams v s) = Overlay.versionGE13 s := by
  unfold Overlay.versionGE13
  rw [uwp_wmsParams, alookup_extend_notmem _ _ _ (version_notmem_spatial v s)]

theorem spatialParams_uwp (v : Viewport) (s : OverlayState) :
    Overlay.spatialParams v (Overlay.updateWmsParams v s) =
      Overlay.spatialParams v s :=
  spatialParams_congr v _ _ (versionGE13_uwp v s) rfl

theorem uwp_idem (v : Viewport) (s : OverlayState) :
    Overlay.updateWmsParams v (Overlay.updateWmsParams v s) =
      Overlay.updateWmsParams v s := by
  show { Overlay.updateWmsParams v s with
      wmsParams := extend (Overlay.updateWmsParams v s).wmsParams
        (Overlay.spatialParams v (Overlay.updateWmsParams v s)) } =
    Overlay.updateWmsParams v s
  rw [spatialParams_uwp, uwp_wmsParams,
    extend_extend_self _ _ (spatial_keys_nodup v s)]
  rfl

theorem update_map (v : Viewport) (s : OverlayState) :
    (Overlay.update v s).map = s.map := by
  cases hm : s.map with
  | false => rw [update_not_attached v s hm]; exact hm
  | true =>
    by_cases hc : s.currentUrl = some (Overlay.computedUrl v s)
    · rw [update_same v s hm hc]; simp [hm]
    · rw [update_new v s hm hc]; simp [hm]

theorem update_url (v : Viewport) (s : OverlayState) :
    (Overlay.update v s).url = s.url := by
  cases hm : s.map with
  | false => rw [update_not_attached v s hm]
  | true =>
    by_cases hc : s.currentUrl = some (Overlay.computedUrl v s)
    · rw [update_same v s hm hc]; simp
    · rw [update_new v s hm hc]; simp

theorem update_optCrs (v : Viewport) (s : OverlayState) :
    (Overlay.update v s).optCrs = s.optCrs := by
  cases hm : s.map with
  | false => rw [update_not_attached v s hm]
  | true =>
    by_cases hc : s.currentUrl = some (Overlay.computedUrl v s)
    · rw [update_same v s hm hc]; simp
    · rw [update_new v s hm hc]; simp

theorem update_optUppercase (v : Viewport) (s : OverlayState) :
    (Overlay.update v s).optUppercase = s.optUppercase := by
  cases hm : s.map with
  | false => rw [update_not_attached v s hm]
  | true =>
    by_cases hc : s.currentUrl = some (Overlay.computedUrl v s)
    · rw [update_same v s hm hc]; simp
    · rw [update_new v s hm hc]; simp

theorem update_currentOverlay (v : Viewport) (s : OverlayState) :
    (Overlay.update v s).currentOverlay = s.currentOverlay := by
  cases hm : s.map with
  | false => rw [update_not_attached v s hm]
  | true =>
    by_cases hc : s.currentUrl = some (Overlay.computedUrl v s)
    · rw [update_same v s hm hc]; simp
    · rw [update_new v s hm hc]; simp

theorem update_wmsParams_eq (v : Viewport) (s : OverlayState) (h : s.map = true) :
    (Overlay.update v s).wmsParams = extend s.wmsParams (Overlay.spatialParams v s) := by
  by_cases hc : s.currentUrl = some (Overlay.computedUrl v s)
  · rw [update_same v s h hc, uwp_wmsParams]
  · rw [update_new v s h hc]
    exact uwp_wmsParams v s

theorem update_currentUrl (v : Viewport) (s : OverlayState) (h : s.map = true) :
    (Overlay.update v s).currentUrl = some (Overlay.computedUrl v s) := by
  by_cases hc : s.currentUrl = some (Overlay.computedUrl v s)
  · rw [update_same v s h hc, uwp_currentUrl, hc]
  · rw [update_new v s h hc]

theorem update_stable (v : Viewport) (t : OverlayState) (hm : t.map = true)
    (hwms : extend t.wmsParams (Overlay.spatialParams v t) = t.wmsParams)
    (hcur : t.currentUrl = some (Overlay.getImageUrl t)) :
    Overlay.update v t = t := by
  have huwp : Overlay.updateWmsParams v t = t := by
    show { t with wmsParams := extend t.wmsParams (Overlay.spatialParams v t) } = t
    rw [hwms]
  have hcu : Overlay.computedUrl v t = Overlay.getImageUrl t := by
    rw [Overlay.computedUrl, huwp]
  rw [update_same v t hm (by rw [hcu]; exact hcur), huwp]

theorem versionGE13_update (v : Viewport) (s : OverlayState) (h : s.map = true) :
    Overlay.versionGE13 (Overlay.update v s) = Overlay.versionGE13 s := by
  have h1 : Overlay.versionGE13 (Overlay.update v s) =
      Overlay.versionGE13 (Overlay.updateWmsParams v s) :=
    versionGE13_congr _ _ (by rw [update_wmsParams_eq v s h, uwp_wmsParams])
  rw [h1, versionGE13_uwp]

theorem spatialParams_update (v : Viewport) (s : OverlayState) (h : s.map = true) :
    Overlay.spatialParams v (Overlay.update v s) = Overlay.spatialParams v s :=
  spatialParams_congr v _ _ (versionGE13_update v s h) (update_optCrs v s)

theorem getImageUrl_update (v : Viewport) (s : OverlayState) (h : s.map = true) :
    Overlay.getImageUrl (Overlay.update v s) = Overlay.computedUrl v s := by
  rw [Overlay.computedUrl]
  exact getImageUrl_congr _ _ (update_url v s)
    (by rw [update_wmsParams_eq v s h, uwp_wmsParams]) (update_optUppercase v s)

theorem update_update (v : Viewport) (s : OverlayState) :
    Overlay.update v (Overlay.update v s) = Overlay.update v s := by
  cases hm : s.map with
  | false => rw [update_not_attached v s hm, update_not_attached v s hm]
  | true =>
    apply update_stable
    · rw [update_map]; exact hm
    · rw [spatialParams_update v s hm, update_wmsParams_eq v s hm,
        extend_extend_self _ _ (spatial_keys_nodup v s)]
    · rw [update_currentUrl v s hm, getImageUrl_update v s hm]

theorem findUrl_skip (i : Nat) (l l2 : List (Nat × String))
    (h : ∀ p ∈ l, p.1 ≠ i) :
    Overlay.findUrl i (l ++ l2) = Overlay.findUrl i l2 := by
  induction l with
  | nil => rfl
  | cons hd tl ih =>
    obtain ⟨j, u⟩ := hd
    have hj : j ≠ i := h (j, u) (by simp)
    rw [List.cons_append, Overlay.findUrl, if_neg hj]
    exact ih (fun p hp => h p (by simp [hp]))

theorem mem_removePending (i : Nat) (l : List (Nat × String)) (p : Nat × String) :
    p ∈ Overlay.removePending i l ↔ p ∈ l ∧ p.1 ≠ i := by
  simp [Overlay.removePending, List.mem_filter, bne_iff_ne]

theorem removePending_of_notmem (i : Nat) (l : List (Nat × String))
    (h : ∀ p ∈ l, p.1 ≠ i) : Overlay.removePending i l = l := by
  rw [Overlay.removePending, List.filter_eq_self]
  intro p hp
  simpa [bne_iff_ne] using h p hp

theorem load_none (i : Nat) (s : OverlayState)
    (h : Overlay.findUrl i s.pending = none) : Overlay.load i s = s := by
  simp [Overlay.load, h]

theorem load_stale (i : Nat) (s : OverlayState) (u : String)
    (hf : Overlay.findUrl i s.pending = some u) (hm : s.map = true)
    (hne : some u ≠ s.currentUrl) :
    Overlay.load i s = { s with pending := Overlay.removePending i s.pending } := by
  simp [Overlay.load, hf, hm, hne]

theorem load_hit (i : Nat) (s : OverlayState) (u : String)
    (hf : Overlay.findUrl i s.pending = some u) (hm : s.map = true)
    (he : s.currentUrl = some u) :
    Overlay.load i s =
      { s with pending := Overlay.removePending i s.pending,
               currentOverlay := some (i, u) } := by
  simp [Overlay.load, hf, hm, he]

theorem load_currentOverlay_changed (i : Nat) (t : OverlayState)
    (h : (Overlay.load i t).currentOverlay ≠ t.currentOverlay) :
    ∃ u, Overlay.findUrl i t.pending = some u ∧ t.currentUrl = some u := by
  cases hf : Overlay.findUrl i t.pending with
  | none => exact absurd (by rw [load_none i t hf]) h
  | some u =>
    refine ⟨u, rfl, ?_⟩
    cases hm : t.map with
    | false =>
      exfalso
      apply h
      simp [Overlay.load, hf, hm]
    | true =>
      by_cases hne : some u = t.currentUrl
      · exact hne.symm
      · exact absurd (by rw [load_stale i t u hf hm hne]) h

theorem loadFail_none (i : Nat) (s : OverlayState)
    (h : Overlay.findUrl i s.pending = none) : Overlay.loadFail i s = s := by
  simp [Overlay.loadFail, h]

theorem loadFail_some (i : Nat) (s : OverlayState) (u : String)
    (h : Overlay.findUrl i s.pending = some u) :
    Overlay.loadFail i s =
      { s with pending := Overlay.removePending i s.pending,
               errorCalls :=
                 if s.onErrorConfigured then s.errorCalls ++ [u]
                 else s.errorCalls } := by
  simp [Overlay.loadFail, h]

theorem mem_addKey (l : List String) (n m : String) :
    m ∈ Source.addKey l n ↔ m ∈ l ∨ m = n := by
  rw [Source.addKey]
  by_cases h : n ∈ l
  · rw [if_pos h]
    constructor
    · exact Or.inl
    · rintro (h1 | rfl)
      · exact h1
      · exact h
  · rw [if_neg h]
    simp

theorem addKey_ne_nil (l : List String) (n : String) : Source.addKey l n ≠ [] := by
  rw [Source.addKey]
  by_cases h : n ∈ l
  · rw [if_pos h]
    intro he
    subst he
    simp at h
  · rw [if_neg h]
    simp

theorem mem_removeKey (l : List String) (n m : String) :
    m ∈ Source.removeKey l n ↔ m ∈ l ∧ m ≠ n := by
  simp [Source.removeKey, List.mem_filter, bne_iff_ne]

theorem refreshOverlay_inv (s : SourceState) (hm : s.map = true)
    (hn : ∀ n ∈ s.subLayers, n ≠ "") :
    strongInv (Source.refreshOverlay s) := by
  by_cases he : s.subLayers = []
  · have hr : Source.refreshOverlay s = { s with ovAttached := false } := by
      simp [Source.refreshOverlay, hm, he, joinComma, joinSep]
    rw [hr]
    exact ⟨hm, hn, ⟨by simp [he], fun hc => absurd he hc⟩, fun hc => absurd he hc⟩
  · have hj : joinComma s.subLayers ≠ "" := joinComma_ne_empty _ he hn
    have hr : Source.refreshOverlay s =
        { s with ovParams := extend s.ovParams [("layers", joinComma s.subLayers)],
                 ovAttached := true } := by
      simp [Source.refreshOverlay, hm, hj]
    rw [hr]
    refine ⟨hm, hn, ⟨fun _ => he, fun _ => rfl⟩, ?_⟩
    intro _
    exact alookup_extend_mem _ _ _ _ (by simp [keys]) rfl

theorem applyOp_inv (op : Source.SubLayerOp) (s : SourceState)
    (hop : Source.SubLayerOp.name op ≠ "") (h : strongInv s) :
    strongInv (Source.applyOp op s) := by
  obtain ⟨hm, hn, _⟩ := h
  cases op with
  | add n =>
    show strongInv (Source.refreshOverlay
      { s with subLayers := Source.addKey s.subLayers n })
    apply refreshOverlay_inv
    · exact hm
    intro m hmem
    rcases (mem_addKey s.subLayers n m).mp hmem with h1 | rfl
    · exact hn m h1
    · exact hop
  | remove n =>
    show strongInv (Source.refreshOverlay
      { s with subLayers := Source.removeKey s.subLayers n })
    apply refreshOverlay_inv
    · exact hm
    intro m hmem
    exact hn m ((mem_removeKey s.subLayers n m).mp hmem).1

theorem runOps_inv (ops : List Source.SubLayerOp) (s : SourceState)
    (hops : ∀ op ∈ ops, Source.SubLayerOp.name op ≠ "") (h : strongInv s) :
    strongInv (Source.runOps ops s) := by
  induction ops generalizing s with
  | nil => exact h
  | cons op rest ih =>
    exact ih _ (fun o ho => hops o (by simp [ho]))
      (applyOp_inv op s (hops op (by simp)) h)

theorem onAdd_fresh_inv (params : StrMap) :
    strongInv (Source.onAdd (Source.mkSource params)) := by
  apply refreshOverlay_inv
  · rfl
  · intro n hn
    simp [Source.mkSource] at hn

theorem alookup_append_of_none {β : Type} (l l2 : List (String × β)) (k : String)
    (h : alookup l k = none) : alookup (l ++ l2) k = alookup l2 k := by
  induction l with
  | nil => rfl
  | cons hd tl ih =>
    obtain ⟨k0, v0⟩ := hd
    by_cases hk : k0 = k
    · simp [alookup, hk] at h
    · rw [alookup, if_neg hk] at h
      rw [List.cons_append, alookup, if_neg hk]
      exact ih h

theorem alookup_of_mem_nodup {β : Type} (l : List (String × β)) (k : String)
    (v : β) (hnd : (keys l).Nodup) (h : (k, v) ∈ l) : alookup l k = some v := by
  induction l with
  | nil => cases h
  | cons hd tl ih =>
    obtain ⟨k0, v0⟩ := hd
    simp only [keys, List.map_cons, List.nodup_cons] at hnd
    rcases List.mem_cons.mp h with he | hm
    · cases he
      simp [alookup]
    · have hk0 : k0 ≠ k := by
        intro he2
        subst he2
        exact hnd.1 (by simpa [keys] using List.mem_map_of_mem Prod.fst hm)
      rw [alookup, if_neg hk0]
      exact ih hnd.2 hm

theorem nodup_keys_filter {β : Type} (f : String × β → Bool)
    (l : List (String × β)) (hnd : (keys l).Nodup) :
    (keys (l.filter f)).Nodup :=
  List.Nodup.sublist ((List.filter_sublist l).map Prod.fst) hnd

theorem alookup_spatial_width (v : Viewport) (s : OverlayState) :
    alookup (Overlay.spatialParams v s) "width" = some (toString v.size.x) := by
  simp [Overlay.spatialParams, alookup]

theorem alookup_spatial_height (v : Viewport) (s : OverlayState) :
    alookup (Overlay.spatialParams v s) "height" = some (toString v.size.y) := by
  simp [Overlay.spatialParams, alookup]

theorem alookup_spatial_projKey (v : Viewport) (s : OverlayState) :
    alookup (Overlay.spatialParams v s) (Overlay.projectionKey s) =
      some (Overlay.effectiveCrs s v).code := by
  unfold Overlay.spatialParams Overlay.projectionKey
  cases h : Overlay.versionGE13 s <;> simp [h, alookup]

theorem alookup_spatial_bbox (v : Viewport) (s : OverlayState) :
    alookup (Overlay.spatialParams v s) "bbox" = some (Overlay.bboxString v s) := by
  unfold Overlay.spatialParams Overlay.projectionKey
  cases h : Overlay.versionGE13 s <;> simp [h, alookup]

theorem uwp_lookup_width (v : Viewport) (s : OverlayState) :
    alookup (Overlay.updateWmsParams v s).wmsParams "width" =
      some (toString v.size.x) := by
  rw [uwp_wmsParams]
  exact alookup_extend_mem _ _ _ _ (spatial_keys_nodup v s) (alookup_spatial_width v s)

theorem uwp_lookup_height (v : Viewport) (s : OverlayState) :
    alookup (Overlay.updateWmsParams v s).wmsParams "height" =
      some (toString v.size.y) := by
  rw [uwp_wmsParams]
  exact alookup_extend_mem _ _ _ _ (spatial_keys_nodup v s) (alookup_spatial_height v s)

theorem uwp_lookup_projKey (v : Viewport) (s : OverlayState) :
    alookup (Overlay.updateWmsParams v s).wmsParams (Overlay.projectionKey s) =
      some (Overlay.effectiveCrs s v).code := by
  rw [uwp_wmsParams]
  exact alookup_extend_mem _ _ _ _ (spatial_keys_nodup v s) (alookup_spatial_projKey v s)

theorem uwp_lookup_bbox (v : Viewport) (s : OverlayState) :
    alookup (Overlay.updateWmsParams v s).wmsParams "bbox" =
      some (Overlay.bboxString v s) := by
  rw [uwp_wmsParams]
  exact alookup_extend_mem _ _ _ _ (spatial_keys_nodup v s) (alookup_spatial_bbox v s)

/-- Claim C1 is false as stated: on an attached source, `addSubLayer "a"`
followed by `removeSubLayer "a"` leaves the sub-layer set empty, yet the
overlay's `layers` parameter keeps the stale value `"a"`, which differs from
the comma-join `""` of the now-empty set — `refreshOverlay` only rewrites
`layers` when the joined string is non-empty. -/
theorem c1_layers_param_stale_after_empty :
    (Source.removeSubLayer "a" (Source.addSubLayer "a"
        (Source.onAdd (Source.mkSource Overlay.defaultWmsParams)))).subLayers = [] ∧
    alookup (Source.removeSubLayer "a" (Source.addSubLayer "a"
        (Source.onAdd (Source.mkSource Overlay.defaultWmsParams)))).ovParams
      "layers" = some "a" ∧
    some "a" ≠ some (joinComma []) := by decide

/-- Claim C1 (amended): for every sequence of `addSubLayer`/`removeSubLayer`
calls with non-empty layer names on a Source attached to a map, after each
call the Overlay is attached to the map iff the sub-layer set is non-empty,
and whenever the set is non-empty the Overlay's `layers` WMS parameter equals
the comma-join of the set (the equality cannot be demanded when the set is
empty, per the counterexample; the non-empty-name proviso excludes the
degenerate name `""`, which joins to the empty string and is treated as "no
sub-layers" by the code). -/
theorem c1_source_sublayer_invariant (ops : List Source.SubLayerOp)
    (params : StrMap) (h : ∀ op ∈ ops, Source.SubLayerOp.name op ≠ "") :
    sourceInv (Source.runOps ops (Source.onAdd (Source.mkSource params))) :=
  (runOps_inv ops _ h (onAdd_fresh_inv params)).2.2

/-- Witness for the amended claim C1 at the spec's example sequence
add "roads", add "rivers", remove "roads". -/
theorem c1_source_sublayer_invariant_witness :
    (∀ op ∈ exOps, Source.SubLayerOp.name op ≠ "") ∧
    sourceInv (Source.runOps exOps
      (Source.onAdd (Source.mkSource Overlay.defaultWmsParams))) :=
  ⟨by decide, c1_source_sublayer_invariant exOps Overlay.defaultWmsParams (by decide)⟩

/-- Claim C3: `update` is idempotent — a second `update` with the same
viewport is a no-op on the whole state, one `update` issues at most one image
request, after an attached `update` the last-issued URL is the computed URL
(so the second call computes exactly the last-issued URL), and `update` is a
no-op whenever the overlay is not attached to a map. -/
theorem c3_update_idempotent (v : Viewport) (s : OverlayState) :
    Overlay.update v (Overlay.update v s) = Overlay.update v s ∧
    (Overlay.update v s).nextId ≤ s.nextId + 1 ∧
    Overlay.computedUrl v (Overlay.update v s) = Overlay.computedUrl v s ∧
    (s.map = true →
      (Overlay.update v s).currentUrl = some (Overlay.computedUrl v s)) ∧
    (s.map = false → Overlay.update v s = s) := by
  refine ⟨update_update v s, ?_, ?_, update_currentUrl v s, update_not_attached v s⟩
  · cases hm : s.map with
    | false => rw [update_not_attached v s hm]; exact Nat.le_succ _
    | true =>
      by_cases hc : s.currentUrl = some (Overlay.computedUrl v s)
      · rw [update_same v s hm hc, uwp_nextId]; exact Nat.le_succ _
      · rw [update_new v s hm hc]
  · cases hm : s.map with
    | false => rw [update_not_attached v s hm]
    | true =>
      rw [Overlay.computedUrl]
      have hwms : (Overlay.updateWmsParams v (Overlay.update v s)).wmsParams =
          (Overlay.update v s).wmsParams := by
        rw [uwp_wmsParams, spatialParams_update v s hm, update_wmsParams_eq v s hm,
          extend_extend_self _ _ (spatial_keys_nodup v s)]
      have hgiu : Overlay.getImageUrl (Overlay.updateWmsParams v (Overlay.update v s)) =
          Overlay.getImageUrl (Overlay.update v s) :=
        getImageUrl_congr _ _ (uwp_url _ _) hwms (uwp_optUppercase _ _)
      rw [hgiu, getImageUrl_update v s hm]

set_option maxRecDepth 10000 in
/-- Witness for claim C3: the attached default overlay and a detached
overlay, with the hypotheses discharged at these concrete states. -/
theorem c3_update_idempotent_witness :
    attachedOverlay.map = true ∧
    (Overlay.update exView attachedOverlay).currentUrl =
      some (Overlay.computedUrl exView attachedOverlay) ∧
    (freshOverlay "http://a").map = false ∧
    Overlay.update exView (freshOverlay "http://a") = freshOverlay "http://a" :=
  ⟨rfl, (c3_update_idempotent exView attachedOverlay).2.2.2.1 rfl,
   rfl, (c3_update_idempotent exView (freshOverlay "http://a")).2.2.2.2 rfl⟩

set_option maxRecDepth 4000 in
/-- Claim C4 is false as stated, on both counts.  With version 1.1.1 and the
non-EPSG4326 viewport NW = (10, 20), SE = (5, 15) the code emits the
[west, south, east, north] pattern bbox "10,15,5,20" (= nw.x, se.y, se.x,
nw.y), not the claimed "10,5,20,15"; and with version 1.3.0 and a
non-EPSG4326 system — the claim's "otherwise" branch — the projection key is
`crs`, not `srs`: the code ties the key name to the version alone. -/
theorem c4_axis_order_claim_false :
    alookup (Overlay.updateWmsParams exView attachedOverlay).wmsParams "bbox" =
      some "10,15,5,20" ∧
    ("10,15,5,20" : String) ≠ "10,5,20,15" ∧
    alookup (Overlay.updateWmsParams exView overlay13).wmsParams "srs" = none ∧
    alookup (Overlay.updateWmsParams exView overlay13).wmsParams "crs" =
      some "EPSG:3857" := by decide

/-- Claim C4 (amended): if the parsed WMS version is ≥ 1.3 and the effective
reference system is EPSG:4326, the bbox is the comma-join of
[se.y, nw.x, nw.y, se.x] ([south, west, north, east]); otherwise it is the
comma-join of [nw.x, se.y, se.x, nw.y] ([west, south, east, north]).  The
projection key is `crs` for version ≥ 1.3 and `srs` otherwise, independent of
the reference system.  `parseFloat` maps "1.1.1" to 1.1 and "1.3.0" to 1.3,
and the example viewport with version 1.1.1 yields bbox "10,15,5,20". -/
theorem c4_axis_order_amended (s : OverlayState) (v : Viewport) :
    (Overlay.versionGE13 s = true → (Overlay.effectiveCrs s v).isEPSG4326 = true →
      alookup (Overlay.updateWmsParams v s).wmsParams "bbox" =
        some (joinComma ([v.se.y, v.nw.x, v.nw.y, v.se.x].map toString))) ∧
    (Overlay.versionGE13 s = false ∨ (Overlay.effectiveCrs s v).isEPSG4326 = false →
      alookup (Overlay.updateWmsParams v s).wmsParams "bbox" =
        some (joinComma ([v.nw.x, v.se.y, v.se.x, v.nw.y].map toString))) ∧
    (Overlay.versionGE13 s = true →
      alookup (Overlay.updateWmsParams v s).wmsParams "crs" =
        some (Overlay.effectiveCrs s v).code) ∧
    (Overlay.versionGE13 s = false →
      alookup (Overlay.updateWmsParams v s).wmsParams "srs" =
        some (Overlay.effectiveCrs s v).code) ∧
    parseFloatVal "1.1.1" = some (11, 10) ∧
    parseFloatVal "1.3.0" = some (13, 10) ∧
    alookup (Overlay.updateWmsParams exView attachedOverlay).wmsParams "bbox" =
      some "10,15,5,20" := by
  refine ⟨?_, ?_, ?_, ?_, by decide, by decide, by decide⟩
  · intro h1 h2
    have hb := uwp_lookup_bbox v s
    rw [Overlay.bboxString, Overlay.bboxList, h1, h2] at hb
    simpa using hb
  · intro h1
    have hb := uwp_lookup_bbox v s
    rw [Overlay.bboxString, Overlay.bboxList] at hb
    rcases h1 with h | h <;> simp [h] at hb <;> exact hb
  · intro h1
    have hp := uwp_lookup_projKey v s
    rw [Overlay.projectionKey, h1] at hp
    simpa using hp
  · intro h1
    have hp := uwp_lookup_projKey v s
    rw [Overlay.projectionKey, h1] at hp
    simpa using hp

set_option maxRecDepth 4000 in
/-- Witness for the amended claim C4, discharging each branch hypothesis at
concrete states: version 1.1.1 (non-geographic key `srs`, [w,s,e,n] bbox) and
version 1.3.0 with EPSG:4326 ([s,w,n,e] bbox, key `crs`). -/
theorem c4_axis_order_amended_witness :
    Overlay.versionGE13 attachedOverlay = false ∧
    alookup (Overlay.updateWmsParams exView attachedOverlay).wmsParams "srs" =
      some "EPSG:3857" ∧
    alookup (Overlay.updateWmsParams exView attachedOverlay).wmsParams "bbox" =
      some (joinComma ([exView.nw.x, exView.se.y, exView.se.x,
        exView.nw.y].map toString)) ∧
    Overlay.versionGE13 overlay13 = true ∧
    (Overlay.effectiveCrs overlay13 exView4326).isEPSG4326 = true ∧
    alookup (Overlay.updateWmsParams exView4326 overlay13).wmsParams "bbox" =
      some (joinComma ([exView4326.se.y, exView4326.nw.x, exView4326.nw.y,
        exView4326.se.x].map toString)) ∧
    alookup (Overlay.updateWmsParams exView4326 overlay13).wmsParams "crs" =
      some (Overlay.effectiveCrs overlay13 exView4326).code :=
  ⟨by decide,
   (c4_axis_order_amended attachedOverlay exView).2.2.2.1 (by decide),
   (c4_axis_order_amended attachedOverlay exView).2.1 (Or.inl (by decide)),
   by decide, by decide,
   (c4_axis_order_amended overlay13 exView4326).1 (by decide) (by decide),
   (c4_axis_order_amended overlay13 exView4326).2.2.1 (by decide)⟩

/-- Claim C5 is false as stated: a transport-successful 200 response whose
body is the literal string "error" is not passed through unchanged — the
default parse hook replaces it with the iframe fallback, exactly as it does
for a transport failure. -/
theorem c5_success_error_body_not_passed_through :
    featureInfoText 200 "error" "http://h/wms" = iframeFallback "http://h/wms" ∧
    featureInfoText 200 "error" "http://h/wms" ≠ "error" := by decide

/-- Claim C5 (amended): for every GetFeatureInfo request at URL `U` whose
transport fails (non-200 status; a network failure surfaces as a non-200
status), the content delivered to the display hook is the embedded-frame
reference to `U`, and delivery is a total function (no failure propagates);
on transport success the response text is passed through unchanged unless it
is the literal in-band sentinel `"error"`, which is also replaced by the
embedded frame. -/
theorem c5_feature_info_fallback (status : Nat) (t u : String) :
    (status ≠ 200 → featureInfoText status t u = iframeFallback u) ∧
    (t ≠ "error" → featureInfoText 200 t u = t) ∧
    featureInfoText 200 "error" u = iframeFallback u := by
  refine ⟨?_, ?_, ?_⟩
  · intro h
    simp [featureInfoText, ajaxDeliver, h, Source.parseFeatureInfo, iframeFallback]
  · intro h
    simp [featureInfoText, ajaxDeliver, Source.parseFeatureInfo, h]
  · simp [featureInfoText, ajaxDeliver, Source.parseFeatureInfo, iframeFallback]

/-- Witness for the amended claim C5: a 404 response yields the iframe
fallback, a 200 response with an ordinary body is passed through. -/
theorem c5_feature_info_fallback_witness :
    (404 : Nat) ≠ 200 ∧
    featureInfoText 404 "ignored" "http://h/wms" = iframeFallback "http://h/wms" ∧
    ("<FeatureInfo/>" : String) ≠ "error" ∧
    featureInfoText 200 "<FeatureInfo/>" "http://h/wms" = "<FeatureInfo/>" :=
  ⟨by decide, (c5_feature_info_fallback 404 "ignored" "http://h/wms").1 (by decide),
   by decide,
   (c5_feature_info_fallback 200 "<FeatureInfo/>" "http://h/wms").2.1 (by decide)⟩

/-- Claim C9: transport failure is signalled in-band as the literal string
"error": the default `parseFeatureInfo` substitutes the iframe fallback
exactly when the delivered text equals "error", so a transport-successful 200
response whose body is literally "error" is indistinguishable from a
transport failure and is also replaced by the iframe. -/
theorem c9_error_sentinel_inband (status : Nat) (t u : String) :
    Source.parseFeatureInfo "error" u = iframeFallback u ∧
    (t ≠ "error" → Source.parseFeatureInfo t u = t) ∧
    (status ≠ 200 → featureInfoText status t u = featureInfoText 200 "error" u) ∧
    featureInfoText 200 "error" u = iframeFallback u := by
  refine ⟨?_, ?_, ?_, ?_⟩
  · simp [Source.parseFeatureInfo, iframeFallback]
  · intro h
    simp [Source.parseFeatureInfo, h]
  · intro h
    simp [featureInfoText, ajaxDeliver, h]
  · simp [featureInfoText, ajaxDeliver, Source.parseFeatureInfo, iframeFallback]

/-- Witness for claim C9: a 500 response and a 200 response with body
"error" deliver the same iframe fallback; an ordinary body is untouched. -/
theorem c9_error_sentinel_inband_witness :
    (500 : Nat) ≠ 200 ∧
    featureInfoText 500 "body" "http://u" = featureInfoText 200 "error" "http://u" ∧
    ("body" : String) ≠ "error" ∧
    Source.parseFeatureInfo "body" "http://u" = "body" ∧
    featureInfoText 200 "error" "http://u" = iframeFallback "http://u" :=
  ⟨by decide, (c9_error_sentinel_inband 500 "body" "http://u").2.2.1 (by decide),
   by decide, (c9_error_sentinel_inband 500 "body" "http://u").2.1 (by decide),
   (c9_error_sentinel_inband 500 "body" "http://u").2.2.2⟩

/-- Claim C6: when an overlay image fetch fails, the configured `onError`
callback (if any) is invoked with the failing URL and otherwise the failure
is swallowed; in both cases the displayed image, the last-requested URL and
the id counter are untouched, and no new request enters the in-flight set
(no retry). -/
theorem c6_image_error_swallowed (s : OverlayState) (i : Nat) :
    (Overlay.loadFail i s).currentOverlay = s.currentOverlay ∧
    (Overlay.loadFail i s).currentUrl = s.currentUrl ∧
    (Overlay.loadFail i s).nextId = s.nextId ∧
    (∀ p ∈ (Overlay.loadFail i s).pending, p ∈ s.pending) ∧
    (∀ u, Overlay.findUrl i s.pending = some u → s.onErrorConfigured = true →
      (Overlay.loadFail i s).errorCalls = s.errorCalls ++ [u]) ∧
    (s.onErrorConfigured = false →
      (Overlay.loadFail i s).errorCalls = s.errorCalls) := by
  cases hf : Overlay.findUrl i s.pending with
  | none =>
    rw [loadFail_none i s hf]
    refine ⟨rfl, rfl, rfl, fun p hp => hp, ?_, fun _ => rfl⟩
    intro u hu
    cases hu
  | some u0 =>
    rw [loadFail_some i s u0 hf]
    refine ⟨rfl, rfl, rfl, ?_, ?_, ?_⟩
    · intro p hp
      exact ((mem_removePending i s.pending p).mp hp).1
    · intro u hu hcb
      injection hu with hu
      subst hu
      simp [hcb]
    · intro hcb
      simp [hcb]

/-- Witness for claim C6: a failing in-flight image with and without a
configured callback. -/
theorem c6_image_error_swallowed_witness :
    Overlay.findUrl 0 c6Overlay.pending = some "http://img" ∧
    c6Overlay.onErrorConfigured = true ∧
    (Overlay.loadFail 0 c6Overlay).errorCalls = c6Overlay.errorCalls ++ ["http://img"] ∧
    c6OverlayNoCb.onErrorConfigured = false ∧
    (Overlay.loadFail 0 c6OverlayNoCb).errorCalls = c6OverlayNoCb.errorCalls ∧
    (Overlay.loadFail 0 c6Overlay).currentOverlay = c6Overlay.currentOverlay :=
  ⟨by decide, rfl,
   (c6_image_error_swallowed c6Overlay 0).2.2.2.2.1 "http://img" (by decide) rfl,
   rfl, (c6_image_error_swallowed c6OverlayNoCb 0).2.2.2.2.2 rfl,
   (c6_image_error_swallowed c6Overlay 0).1⟩

/-- Claim C8: `getSourceForUrl` is a process-wide URL-to-Source cache: a miss
creates and stores a source for the URL, a hit returns the identical cached
source object without touching the cache, a repeated call returns exactly the
first call's result, and no call ever evicts an existing entry. -/
theorem c8_source_cache (c : SourceCache) (url url2 : String) (i : Nat)
    (p : String × Nat) :
    (alookup c.entries url = none →
      alookup (getSourceForUrl url c).2.entries url =
        some (getSourceForUrl url c).1) ∧
    (alookup c.entries url = some i → getSourceForUrl url c = (i, c)) ∧
    getSourceForUrl url (getSourceForUrl url c).2 =
      ((getSourceForUrl url c).1, (getSourceForUrl url c).2) ∧
    (p ∈ c.entries → p ∈ (getSourceForUrl url2 c).2.entries) := by
  refine ⟨?_, ?_, ?_, ?_⟩
  · intro h
    simp only [getSourceForUrl, h]
    rw [alookup_append_of_none _ _ _ h]
    simp [alookup]
  · intro h
    simp [getSourceForUrl, h]
  · cases h : alookup c.entries url with
    | some j => simp [getSourceForUrl, h]
    | none =>
      have h2 : alookup (c.entries ++ [(url, c.nextId)]) url = some c.nextId := by
        rw [alookup_append_of_none _ _ _ h]
        simp [alookup]
      simp [getSourceForUrl, h, h2]
  · intro hp
    cases h : alookup c.entries url2 with
    | some j => simp [getSourceForUrl, h, hp]
    | none =>
      simp only [getSourceForUrl, h, List.mem_append]
      exact Or.inl hp

/-- Witness for claim C8 on a concrete cache: miss then hit on the same URL,
the hit case on a pre-populated cache, and no eviction. -/
theorem c8_source_cache_witness :
    alookup (⟨[], 0⟩ : SourceCache).entries "http://w" = none ∧
    alookup (getSourceForUrl "http://w" ⟨[], 0⟩).2.entries "http://w" =
      some (getSourceForUrl "http://w" ⟨[], 0⟩).1 ∧
    getSourceForUrl "http://w" (getSourceForUrl "http://w" ⟨[], 0⟩).2 =
      ((getSourceForUrl "http://w" ⟨[], 0⟩).1,
       (getSourceForUrl "http://w" ⟨[], 0⟩).2) ∧
    alookup (⟨[("http://w", 7)], 8⟩ : SourceCache).entries "http://w" = some 7 ∧
    getSourceForUrl "http://w" (⟨[("http://w", 7)], 8⟩ : SourceCache) =
      (7, (⟨[("http://w", 7)], 8⟩ : SourceCache)) ∧
    (("http://w", 7) ∈ (⟨[("http://w", 7)], 8⟩ : SourceCache).entries →
      ("http://w", 7) ∈
        (getSourceForUrl "http://other" (⟨[("http://w", 7)], 8⟩ : SourceCache)).2.entries) :=
  ⟨by decide,
   (c8_source_cache ⟨[], 0⟩ "http://w" "x" 0 ("y", 0)).1 (by decide),
   (c8_source_cache ⟨[], 0⟩ "http://w" "x" 0 ("y", 0)).2.2.1,
   by decide,
   (c8_source_cache ⟨[("http://w", 7)], 8⟩ "http://w" "x" 7 ("y", 0)).2.1 (by decide),
   (c8_source_cache ⟨[("http://w", 7)], 8⟩ "z" "http://other" 7 ("http://w", 7)).2.2.2⟩

/-- Claim C10: the Overlay constructor mutates the caller's `options` object:
every key outside the recognized set {crs, uppercase, tiled, identify,
opacity, attribution} is removed from `options` and moved into `wmsParams`
(overriding any default); recognized keys stay in `options` untouched; the
`onError` key (being unrecognized) is both stored as the error callback and
copied into `wmsParams`. -/
theorem c10_constructor_splits_options (options : StrMap) (k v : String)
    (hnd : (keys options).Nodup) :
    (Overlay.optNames.contains k = false → (k, v) ∈ options →
      ((k, v) ∉ (Overlay.init options).1 ∧
        alookup (Overlay.init options).2.1 k = some v)) ∧
    (∀ kv ∈ (Overlay.init options).1, Overlay.optNames.contains kv.1 = true) ∧
    (Overlay.optNames.contains k = true →
      ((k, v) ∈ (Overlay.init options).1 ↔ (k, v) ∈ options)) ∧
    (Overlay.init options).2.2 = alookup options "onError" ∧
    (("onError", v) ∈ options →
      alookup (Overlay.init options).2.1 "onError" = some v) := by
  have hmove : ∀ (k2 v2 : String), Overlay.optNames.contains k2 = false →
      (k2, v2) ∈ options → alookup (Overlay.init options).2.1 k2 = some v2 := by
    intro k2 v2 hk2 hmem
    have hmemf : (k2, v2) ∈
        options.filter (fun kv => !(Overlay.optNames.contains kv.1)) :=
      List.mem_filter.mpr ⟨hmem, by simp only [hk2, Bool.not_false]⟩
    exact alookup_extend_mem _ _ _ _
      (nodup_keys_filter _ _ hnd)
      (alookup_of_mem_nodup _ _ _ (nodup_keys_filter _ _ hnd) hmemf)
  refine ⟨?_, ?_, ?_, rfl, ?_⟩
  · intro hk hmem
    constructor
    · intro habs
      have h2 := (List.mem_filter.mp habs).2
      rw [hk] at h2
      cases h2
    · exact hmove k v hk hmem
  · intro kv hkv
    exact (List.mem_filter.mp hkv).2
  · intro hk
    constructor
    · intro hkv
      exact (List.mem_filter.mp hkv).1
    · intro hmem
      exact List.mem_filter.mpr ⟨hmem, hk⟩
  · intro hmem
    exact hmove "onError" v (by decide) hmem

/-- Witness for claim C10 at a concrete `options` object holding one
recognized key (`uppercase`), one WMS parameter (`styles`) and an `onError`
callback. -/
theorem c10_constructor_splits_options_witness :
    (keys exOptions).Nodup ∧
    Overlay.optNames.contains "styles" = false ∧
    ("styles", "default") ∈ exOptions ∧
    ("styles", "default") ∉ (Overlay.init exOptions).1 ∧
    alookup (Overlay.init exOptions).2.1 "styles" = some "default" ∧
    Overlay.optNames.contains "uppercase" = true ∧
    (("uppercase", "true") ∈ (Overlay.init exOptions).1 ↔
      ("uppercase", "true") ∈ exOptions) ∧
    (Overlay.init exOptions).2.2 = alookup exOptions "onError" ∧
    alookup (Overlay.init exOptions).2.1 "onError" = some "cb" :=
  ⟨by decide, by decide, by decide,
   ((c10_constructor_splits_options exOptions "styles" "default" (by decide)).1
     (by decide) (by decide)).1,
   ((c10_constructor_splits_options exOptions "styles" "default" (by decide)).1
     (by decide) (by decide)).2,
   by decide,
   (c10_constructor_splits_options exOptions "uppercase" "true" (by decide)).2.2.1
     (by decide),
   (c10_constructor_splits_options exOptions "uppercase" "true" (by decide)).2.2.2.1,
   (c10_constructor_splits_options exOptions "onError" "cb" (by decide)).2.2.2.2
     (by decide)⟩

/-- Claim C7: `setParams(partial)` merges `partial` into `wmsParams` in place
(new values overriding existing ones, untouched keys preserved) and then
triggers `update`; and on every update of an attached overlay the spatial
keys width, height, bbox and the projection key (srs/crs) are recomputed from
the current viewport, overwriting any previously set values for those keys. -/
theorem c7_setparams_merge_and_spatial_overwrite (s : OverlayState)
    (v : Viewport) (p : StrMap) (k val : String) :
    Overlay.setParams p v s =
      Overlay.update v { s with wmsParams := extend s.wmsParams p } ∧
    ((keys p).Nodup → alookup p k = some val →
      alookup (extend s.wmsParams p) k = some val) ∧
    (k ∉ keys p → alookup (extend s.wmsParams p) k = alookup s.wmsParams k) ∧
    (s.map = true →
      alookup (Overlay.update v s).wmsParams "width" = some (toString v.size.x) ∧
      alookup (Overlay.update v s).wmsParams "height" = some (toString v.size.y) ∧
      alookup (Overlay.update v s).wmsParams (Overlay.projectionKey s) =
        some (Overlay.effectiveCrs s v).code ∧
      alookup (Overlay.update v s).wmsParams "bbox" =
        some (Overlay.bboxString v s)) := by
  refine ⟨rfl, fun h1 h2 => alookup_extend_mem _ _ _ _ h1 h2,
    fun h => alookup_extend_notmem _ _ _ h, fun hm => ?_⟩
  have hwms : (Overlay.update v s).wmsParams =
      (Overlay.updateWmsParams v s).wmsParams := by
    rw [update_wmsParams_eq v s hm, uwp_wmsParams]
  rw [hwms]
  exact ⟨uwp_lookup_width v s, uwp_lookup_height v s, uwp_lookup_projKey v s,
    uwp_lookup_bbox v s⟩

set_option maxRecDepth 10000 in
/-- Witness for claim C7 at a concrete overlay whose `wmsParams` carry a
stale explicit `bbox`: the merge overrides `styles`, preserves `format`, and
the update recomputes `bbox` from the viewport. -/
theorem c7_setparams_merge_and_spatial_overwrite_witness :
    (keys exParams).Nodup ∧
    alookup exParams "styles" = some "classic" ∧
    alookup (extend attachedOverlay.wmsParams exParams) "styles" =
      some "classic" ∧
    ("format" : String) ∉ keys exParams ∧
    alookup (extend attachedOverlay.wmsParams exParams) "format" =
      alookup attachedOverlay.wmsParams "format" ∧
    attachedOverlay.map = true ∧
    alookup (Overlay.update exView attachedOverlay).wmsParams "bbox" =
      some (Overlay.bboxString exView attachedOverlay) ∧
    Overlay.bboxString exView attachedOverlay = "10,15,5,20" :=
  ⟨by decide, by decide,
   (c7_setparams_merge_and_spatial_overwrite attachedOverlay exView exParams
     "styles" "classic").2.1 (by decide) (by decide),
   by decide,
   (c7_setparams_merge_and_spatial_overwrite attachedOverlay exView exParams
     "format" "x").2.2.1 (by decide),
   rfl,
   ((c7_setparams_merge_and_spatial_overwrite attachedOverlay exView exParams
     "format" "x").2.2.2 rfl).2.2.2,
   by decide⟩

/-- Claim C2: last-requested-wins.  From any attached overlay state with
fresh-id in-flight images, issue update A (computing `uA`, a new URL), then
update B (computing `uB ≠ uA`) before A's image finishes; let B's image load
first and A's image complete afterwards.  Then B's image is displayed after
its load, A's completion leaves B's image displayed, A's image is never
displayed and is discarded from the in-flight set; and in general a `load`
changes the displayed image only when the loaded image's URL still equals the
last-requested URL. -/
theorem c2_last_requested_wins (s s1 s2 s3 s4 : OverlayState)
    (vA vB : Viewport) (uA uB : String) (idA idB : Nat)
    (hm : s.map = true)
    (hfresh : ∀ p ∈ s.pending, p.1 < s.nextId)
    (huA : uA = Overlay.computedUrl vA s)
    (hidA : idA = s.nextId)
    (hs1 : s1 = Overlay.update vA s)
    (huB : uB = Overlay.computedUrl vB s1)
    (hidB : idB = s1.nextId)
    (hs2 : s2 = Overlay.update vB s1)
    (hnew : s.currentUrl ≠ some uA)
    (hAB : uB ≠ uA)
    (hs3 : s3 = Overlay.load idB s2)
    (hs4 : s4 = Overlay.load idA s3) :
    s3.currentOverlay = some (idB, uB) ∧
    s4.currentOverlay = some (idB, uB) ∧
    s4.currentOverlay ≠ some (idA, uA) ∧
    (idA, uA) ∉ s4.pending ∧
    (∀ (t : OverlayState) (i : Nat),
      (Overlay.load i t).currentOverlay ≠ t.currentOverlay →
      ∃ u, Overlay.findUrl i t.pending = some u ∧ t.currentUrl = some u) := by
  subst huA hidA hs1 huB hidB hs2 hs3 hs4
  have h1map : (Overlay.update vA s).map = true := by
    rw [update_map]; exact hm
  have h1cur : (Overlay.update vA s).currentUrl =
      some (Overlay.computedUrl vA s) := update_currentUrl vA s hm
  have h1pend : (Overlay.update vA s).pending =
      s.pending ++ [(s.nextId, Overlay.computedUrl vA s)] := by
    rw [update_new vA s hm hnew]
  have h1next : (Overlay.update vA s).nextId = s.nextId + 1 := by
    rw [update_new vA s hm hnew]
  have hAneB : s.nextId ≠ (Overlay.update vA s).nextId := by
    rw [h1next]
    exact Nat.ne_of_lt (Nat.lt_succ_self _)
  have hne2 : (Overlay.update vA s).currentUrl ≠
      some (Overlay.computedUrl vB (Overlay.update vA s)) := by
    rw [h1cur]
    intro hc
    apply hAB
    injection hc with hc
    exact hc.symm
  have h2map : (Overlay.update vB (Overlay.update vA s)).map = true := by
    rw [update_map]; exact h1map
  have h2cur : (Overlay.update vB (Overlay.update vA s)).currentUrl =
      some (Overlay.computedUrl vB (Overlay.update vA s)) :=
    update_currentUrl vB _ h1map
  have h2pend : (Overlay.update vB (Overlay.update vA s)).pending =
      s.pending ++ [(s.nextId, Overlay.computedUrl vA s)] ++
        [((Overlay.update vA s).nextId,
          Overlay.computedUrl vB (Overlay.update vA s))] := by
    rw [update_new vB _ h1map hne2, h1pend]
  have hids : ∀ p ∈ s.pending ++ [(s.nextId, Overlay.computedUrl vA s)],
      p.1 ≠ (Overlay.update vA s).nextId := by
    intro p hp
    rcases List.mem_append.mp hp with h | h
    · rw [h1next]
      exact Nat.ne_of_lt (Nat.lt_succ_of_lt (hfresh p h))
    · have hpe := List.mem_singleton.mp h
      subst hpe
      exact hAneB
  have hfind2 : Overlay.findUrl ((Overlay.update vA s).nextId)
      (Overlay.update vB (Overlay.update vA s)).pending =
      some (Overlay.computedUrl vB (Overlay.update vA s)) := by
    rw [h2pend, findUrl_skip _ _ _ hids]
    simp [Overlay.findUrl]
  have hs3eq : Overlay.load ((Overlay.update vA s).nextId)
      (Overlay.update vB (Overlay.update vA s)) =
      { Overlay.update vB (Overlay.update vA s) with
        pending := Overlay.removePending ((Overlay.update vA s).nextId)
          (Overlay.update vB (Overlay.update vA s)).pending,
        currentOverlay := some ((Overlay.update vA s).nextId,
          Overlay.computedUrl vB (Overlay.update vA s)) } :=
    load_hit _ _ _ hfind2 h2map h2cur
  have hc3 : (Overlay.load ((Overlay.update vA s).nextId)
      (Overlay.update vB (Overlay.update vA s))).currentOverlay =
      some ((Overlay.update vA s).nextId,
        Overlay.computedUrl vB (Overlay.update vA s)) := by
    rw [hs3eq]
  have h3map : (Overlay.load ((Overlay.update vA s).nextId)
      (Overlay.update vB (Overlay.update vA s))).map = true := by
    rw [hs3eq]
    exact h2map
  have h3cur : (Overlay.load ((Overlay.update vA s).nextId)
      (Overlay.update vB (Overlay.update vA s))).currentUrl =
      some (Overlay.computedUrl vB (Overlay.update vA s)) := by
    rw [hs3eq]
    exact h2cur
  have h3pend : (Overlay.load ((Overlay.update vA s).nextId)
      (Overlay.update vB (Overlay.update vA s))).pending =
      s.pending ++ [(s.nextId, Overlay.computedUrl vA s)] := by
    rw [hs3eq]
    show Overlay.removePending _ _ = _
    rw [h2pend, Overlay.removePending, List.filter_append]
    have hl : List.filter
        (fun p => p.1 != (Overlay.update vA s).nextId)
        (s.pending ++ [(s.nextId, Overlay.computedUrl vA s)]) =
        s.pending ++ [(s.nextId, Overlay.computedUrl vA s)] :=
      removePending_of_notmem _ _ hids
    rw [hl]
    simp
  have hfindA : Overlay.findUrl s.nextId (Overlay.load ((Overlay.update vA s).nextId)
      (Overlay.update vB (Overlay.update vA s))).pending =
      some (Overlay.computedUrl vA s) := by
    rw [h3pend, findUrl_skip _ _ _ (fun p hp => Nat.ne_of_lt (hfresh p hp))]
    simp [Overlay.findUrl]
  have hneA : some (Overlay.computedUrl vA s) ≠
      (Overlay.load ((Overlay.update vA s).nextId)
        (Overlay.update vB (Overlay.update vA s))).currentUrl := by
    rw [h3cur]
    intro hc
    injection hc with hc
    exact hAB hc.symm
  have hs4eq : Overlay.load s.nextId (Overlay.load ((Overlay.update vA s).nextId)
      (Overlay.update vB (Overlay.update vA s))) =
      { Overlay.load ((Overlay.update vA s).nextId)
          (Overlay.update vB (Overlay.update vA s)) with
        pending := Overlay.removePending s.nextId
          (Overlay.load ((Overlay.update vA s).nextId)
            (Overlay.update vB (Overlay.update vA s))).pending } :=
    load_stale _ _ _ hfindA h3map hneA
  have hc4 : (Overlay.load s.nextId (Overlay.load ((Overlay.update vA s).nextId)
      (Overlay.update vB (Overlay.update vA s)))).currentOverlay =
      some ((Overlay.update vA s).nextId,
        Overlay.computedUrl vB (Overlay.update vA s)) := by
    rw [hs4eq]
    exact hc3
  refine ⟨hc3, hc4, ?_, ?_, ?_⟩
  · rw [hc4]
    intro hc
    injection hc with hc
    injection hc with hc1 hc2
    exact hAneB hc1.symm
  · rw [hs4eq]
    intro habs
    have hmem := (mem_removePending _ _ _).mp habs
    exact hmem.2 rfl
  · intro t i hchanged
    exact load_currentOverlay_changed i t hchanged

set_option maxRecDepth 20000 in
/-- Witness for claim C2: from the attached default overlay, update at the
256-pixel viewport (image 0), update at the 512-pixel viewport (image 1,
different URL), let image 1 load, then image 0: image 1 stays displayed and
image 0 is discarded. -/
theorem c2_last_requested_wins_witness :
    attachedOverlay.map = true ∧
    attachedOverlay.currentUrl ≠
      some (Overlay.computedUrl exView attachedOverlay) ∧
    Overlay.computedUrl exViewLarge (Overlay.update exView attachedOverlay) ≠
      Overlay.computedUrl exView attachedOverlay ∧
    (Overlay.load 0 (Overlay.load 1 (Overlay.update exViewLarge
        (Overlay.update exView attachedOverlay)))).currentOverlay =
      some (1, Overlay.computedUrl exViewLarge
        (Overlay.update exView attachedOverlay)) ∧
    (0, Overlay.computedUrl exView attachedOverlay) ∉
      (Overlay.load 0 (Overlay.load 1 (Overlay.update exViewLarge
        (Overlay.update exView attachedOverlay)))).pending :=
  ⟨rfl, by decide, by decide,
   (c2_last_requested_wins attachedOverlay
     (Overlay.update exView attachedOverlay)
     (Overlay.update exViewLarge (Overlay.update exView attachedOverlay))
     (Overlay.load 1 (Overlay.update exViewLarge
       (Overlay.update exView attachedOverlay)))
     (Overlay.load 0 (Overlay.load 1 (Overlay.update exViewLarge
       (Overlay.update exView attachedOverlay))))
     exView exViewLarge
     (Overlay.computedUrl exView attachedOverlay)
     (Overlay.computedUrl exViewLarge (Overlay.update exView attachedOverlay))
     0 1 rfl (by decide) rfl rfl rfl rfl (by decide) rfl (by decide) (by decide)
     rfl rfl).2.1,
   (c2_last_requested_wins attachedOverlay
     (Overlay.update exView attachedOverlay)
     (Overlay.update exViewLarge (Overlay.update exView attachedOverlay))
     (Overlay.load 1 (Overlay.update exViewLarge
       (Overlay.update exView attachedOverlay)))
     (Overlay.load 0 (Overlay.load 1 (Overlay.update exViewLarge
       (Overlay.update exView attachedOverlay))))
     exView exViewLarge
     (Overlay.computedUrl exView attachedOverlay)
     (Overlay.computedUrl exViewLarge (Overlay.update exView attachedOverlay))
     0 1 rfl (by decide) rfl rfl rfl rfl (by decide) rfl (by decide) (by decide)
     rfl rfl).2.2.2.1⟩
